import Mathlib

/-!
Shallow embedding of the scm-fsim repository (triplet-text similarity classifier):
the feature pipeline of `src/data.py` and the siamese model of
`src/models/bert_esim.py`, together with theorems settling the specification
claims about them.

Conventions of the embedding:
* Python lists become Lean `List`s; tokens are `String`s, token ids are `Nat`s.
* Python ints are non-negative in every regime the claims quantify over
  (`max_seq_length ≥ 3`), so budgets are `Nat` (truncated subtraction agrees
  with Python there; Python list repetition with a negative count is also
  empty, matching `Nat` subtraction in the padding computation).
* Tensors become (nested) `List`s of `ℚ`; the external torch building blocks
  (LSTM encoders, linear layers, softmax's exponential, the cross-entropy
  loss) are abstract function parameters gathered in `EsimParams`, since they
  are external collaborators of the repository.
-/

namespace ScmFsim

/-- `_truncate_seq_pair` from `src/data.py` (lines 222-236): repeatedly pop the
front token of the longer of the two sequences (of `tokens_b` on ties, since
the code pops `tokens_a` only when `len(tokens_a) > len(tokens_b)`) until
`len(tokens_a) + len(tokens_b) <= max_length`.  The Python code mutates the
lists in place; the embedding returns the final pair. -/
def truncateSeqPair (tokens_a tokens_b : List String) (max_length : Nat) :
    List String × List String :=
  if _h1 : tokens_a.length + tokens_b.length ≤ max_length then
    (tokens_a, tokens_b)
  else if _h2 : tokens_b.length < tokens_a.length then
    truncateSeqPair tokens_a.tail tokens_b max_length
  else
    truncateSeqPair tokens_a tokens_b.tail max_length
termination_by tokens_a.length + tokens_b.length
decreasing_by
  · simp only [List.length_tail]; omega
  · simp only [List.length_tail]; omega

/-- Python truthiness of the optional `text_b` argument: `None` and the empty
string are falsy. -/
def pyTruthy : Option String → Bool
  | none => false
  | some s => s ≠ ""

/-- `InputExample._text_pair_to_feature` from `src/data.py` (lines 160-213),
parametrised by the external tokenizer capability: `tokenize` and the
per-token id map underlying `convert_tokens_to_ids` (which converts token by
token, hence `List.map`).  Returns `(input_ids, segment_ids, input_mask)` in
the order of the source's `return` statement. -/
def textPairToFeature (tokenize : String → List String) (tokToId : String → Nat)
    (text_a : String) (text_b : Option String) (max_seq_length : Nat) :
    List Nat × List Nat × List Nat :=
  let tokens_a0 := tokenize text_a
  if pyTruthy text_b then
    let tokens_b0 := tokenize (text_b.getD "")
    let tp := truncateSeqPair tokens_a0 tokens_b0 (max_seq_length - 3)
    let tokens1 := "[CLS]" :: tp.1 ++ ["[SEP]"]
    let segment_ids1 := List.replicate tokens1.length 0
    let tokens2 := if tp.2 ≠ [] then tokens1 ++ tp.2 ++ ["[SEP]"] else tokens1
    let segment_ids2 :=
      if tp.2 ≠ [] then segment_ids1 ++ List.replicate (tp.2.length + 1) 1
      else segment_ids1
    let input_ids := tokens2.map tokToId
    let input_mask := List.replicate input_ids.length 1
    let padding := List.replicate (max_seq_length - input_ids.length) 0
    (input_ids ++ padding, segment_ids2 ++ padding, input_mask ++ padding)
  else
    let tokens_a :=
      if tokens_a0.length > max_seq_length - 2 then
        tokens_a0.drop (tokens_a0.length - (max_seq_length - 2))
      else tokens_a0
    let tokens1 := "[CLS]" :: tokens_a ++ ["[SEP]"]
    let segment_ids1 := List.replicate tokens1.length 0
    let input_ids := tokens1.map tokToId
    let input_mask := List.replicate input_ids.length 1
    let padding := List.replicate (max_seq_length - input_ids.length) 0
    (input_ids ++ padding, segment_ids1 ++ padding, input_mask ++ padding)

/-- `InputFeatures(*feature)` followed by `InputFeatures.to_tensor`
(`src/data.py` lines 125-138, 215-219).  `_text_pair_to_feature` returns
`(input_ids, segment_ids, input_mask)` but the `InputFeatures` constructor
takes `(input_ids, input_mask, segment_ids)` positionally, so the
`input_mask` field holds the segment-id array and vice versa; `to_tensor`
then returns the fields `(input_ids, segment_ids, input_mask)`, i.e. the
arrays `(input_ids, input_mask, segment_ids)` of the original feature. -/
def toTensorTriple (f : List Nat × List Nat × List Nat) :
    List Nat × List Nat × List Nat :=
  (f.1, f.2.2, f.2.1)

/-- The in-memory dataset of `TripletTextDataset` (`src/data.py` lines 11-34):
three parallel text lists plus the numeric labels computed at construction. -/
structure TripletTextDataset where
  text_a_list : List String
  text_b_list : List String
  text_c_list : List String
  label_list : List Nat
deriving DecidableEq

/-- `TripletTextDataset.__init__` (`src/data.py` lines 12-22).  A missing or
empty `label_list` is replaced by `None` placeholders; the constructor asserts
that all four lists have equal length (`none` models the assertion failing);
each stored numeric label is `0 if label == "B" else 1` — in particular the
`None` placeholder compares unequal to `"B"` and is stored as `1`. -/
def TripletTextDataset.init (text_a_list text_b_list text_c_list : List String)
    (label_list : Option (List String)) : Option TripletTextDataset :=
  let labels : List (Option String) :=
    if label_list = none ∨ (label_list.getD []).length = 0 then
      List.replicate text_a_list.length none
    else (label_list.getD []).map some
  if labels.length = text_a_list.length ∧ labels.length = text_b_list.length ∧
      labels.length = text_c_list.length then
    some ⟨text_a_list, text_b_list, text_c_list,
      labels.map (fun label => if label = some "B" then 0 else 1)⟩
  else none

/-- `TripletTextDataset.__len__` (`src/data.py` lines 24-25). -/
def TripletTextDataset.size (d : TripletTextDataset) : Nat :=
  d.label_list.length

/-- `TripletTextDataset.__getitem__` (`src/data.py` lines 27-34); `none`
models Python's `IndexError` on an out-of-range index. -/
def TripletTextDataset.getItem (d : TripletTextDataset) (index : Nat) :
    Option (String × String × String × Nat) :=
  match d.text_a_list.get? index, d.text_b_list.get? index,
      d.text_c_list.get? index, d.label_list.get? index with
  | some a, some b, some c, some l => some (a, b, c, l)
  | _, _, _, _ => none

/-- A pandas dataframe with columns `A`, `B`, `C` and an optional `label`
column, as consumed by `TripletTextDataset.from_dataframe`. -/
structure DataFrame where
  A : List String
  B : List String
  C : List String
  label : Option (List String)

/-- `TripletTextDataset.from_dataframe` (`src/data.py` lines 36-44): when the
`label` column is absent it is filled with the constant `"B"` before the
lists are handed to the constructor. -/
def fromDataframe (df : DataFrame) : Option TripletTextDataset :=
  let label_list :=
    match df.label with
    | none => List.replicate df.A.length "B"
    | some l => l
  TripletTextDataset.init df.A df.B df.C (some label_list)

/-- One dataframe row `(A, B, C, label)`, the unit the augmentation transform
permutes and `drop_duplicates` compares (on all columns). -/
structure Row where
  A : String
  B : String
  C : String
  label : String
deriving DecidableEq

/-- The `df_cp1` variant of `TripletTextDataset.augment` (`src/data.py`
lines 63-66): swap columns `B` and `C`, relabel `"C"`. -/
def cp1 (r : Row) : Row := ⟨r.A, r.C, r.B, "C"⟩

/-- The `df_cp2` variant (lines 68-71): swap columns `A` and `B`, relabel
`"B"`. -/
def cp2 (r : Row) : Row := ⟨r.B, r.A, r.C, "B"⟩

/-- The `df_cp3` variant (lines 73-77): `A := B`, `B := C`, `C := A`, relabel
`"C"`. -/
def cp3 (r : Row) : Row := ⟨r.B, r.C, r.A, "C"⟩

/-- The `df_cp4` variant (lines 79-83): `A := C`, `B := A`, `C := C` (the
self-assignment of the source), relabel `"C"`. -/
def cp4 (r : Row) : Row := ⟨r.C, r.A, r.C, "C"⟩

/-- The `df_cp5` variant (lines 85-89): `A := C`, `B := C`, `C := A`, relabel
`"B"`. -/
def cp5 (r : Row) : Row := ⟨r.C, r.C, r.A, "B"⟩

/-- `pandas.DataFrame.drop_duplicates` on full rows: keep the first
occurrence of each row, drop later exact duplicates. -/
def dropDuplicates {α : Type} [DecidableEq α] : List α → List α
  | [] => []
  | r :: rs => r :: dropDuplicates (rs.filter (fun x => x ≠ r))
termination_by l => l.length
decreasing_by
  simp only [List.length_cons]
  exact Nat.lt_succ_of_le (List.length_filter_le _ _)

/-- `TripletTextDataset.augment` (`src/data.py` lines 61-95): concatenate the
original rows with the five permuted copies, drop exact duplicates.  The
final `df.sample(frac=1)` is a uniformly random permutation (shuffle) of the
rows; it is omitted here because it has no deterministic embedding, and the
properties claimed of `augment` (size, membership) are invariant under any
permutation. -/
def augment (rows : List Row) : List Row :=
  dropDuplicates
    (rows ++ rows.map cp1 ++ rows.map cp2 ++ rows.map cp3 ++
      rows.map cp4 ++ rows.map cp5)

/-- One record of the list handed to `TripletTextDataset.from_dict_list`; the
`label` key may be absent. -/
structure Record where
  A : String
  B : String
  C : String
  label : Option String

/-- `TripletTextDataset.from_dict_list` (`src/data.py` lines 46-53):
`pd.DataFrame(data)` has no `label` column exactly when no record carries
one, in which case the column is filled with `"B"`; with `use_augment` the
rows pass through `augment`; finally `from_dataframe` runs on the resulting
(label-complete) rows.  A record missing the key while others have it yields
`NaN` in pandas, which compares unequal to `"B"`; `Option.getD ""` models
that behaviour for the label mapping. -/
def fromDictList (data : List Record) (use_augment : Bool) :
    Option TripletTextDataset :=
  let rows : List Row :=
    if data.all (fun r => r.label.isNone) then
      data.map (fun r => ⟨r.A, r.B, r.C, "B"⟩)
    else
      data.map (fun r => ⟨r.A, r.B, r.C, r.label.getD ""⟩)
  let rows2 := if use_augment then augment rows else rows
  TripletTextDataset.init (rows2.map Row.A) (rows2.map Row.B)
    (rows2.map Row.C) (some (rows2.map Row.label))

/-- The result of `default_collate` on the list of per-example tuples built by
`three_pair_collate_fn`: three stacked feature triples and the stacked label
tensor.  Each per-example label tensor is `torch.LongTensor([label])`, a
1-dimensional tensor of length 1, so the stacked label tensor is
2-dimensional. -/
structure BatchTensors where
  aT : List (List Nat) × List (List Nat) × List (List Nat)
  bT : List (List Nat) × List (List Nat) × List (List Nat)
  cT : List (List Nat) × List (List Nat) × List (List Nat)
  labels : List (List Nat)
deriving DecidableEq

/-- `three_pair_collate_fn` produced by `get_collator` (`src/data.py` lines
98-122): each batch item `(text_a, text_b, text_c, label)` becomes an
`InputExample` whose `to_two_pair_feature` encodes each text alone
(`text_b = None` in every `_text_pair_to_feature` call, lines 215-219);
`default_collate` stacks componentwise.  Device placement is a no-op in the
embedding. -/
def threePairCollate (tokenize : String → List String) (tokToId : String → Nat)
    (max_len : Nat) (batch : List (String × String × String × Nat)) :
    BatchTensors :=
  let items := batch.map (fun e =>
    (toTensorTriple (textPairToFeature tokenize tokToId e.1 none max_len),
     toTensorTriple (textPairToFeature tokenize tokToId e.2.1 none max_len),
     toTensorTriple (textPairToFeature tokenize tokToId e.2.2.1 none max_len),
     [e.2.2.2]))
  ⟨(items.map (fun i => i.1.1), items.map (fun i => i.1.2.1),
      items.map (fun i => i.1.2.2)),
   (items.map (fun i => i.2.1.1), items.map (fun i => i.2.1.2.1),
      items.map (fun i => i.2.1.2.2)),
   (items.map (fun i => i.2.2.1.1), items.map (fun i => i.2.2.1.2.1),
      items.map (fun i => i.2.2.1.2.2)),
   items.map (fun i => i.2.2.2)⟩

/-- The shape of a stacked 2-dimensional tensor represented as a list of
rows: `[number of rows, length of the first row]`. -/
def matrixShape (t : List (List Nat)) : List Nat :=
  [t.length, (t.headD []).length]

/-- `t` is a well-formed `rows × cols` matrix: `rows` rows, every row of
length `cols`. -/
def isMatrixOfShape (t : List (List Nat)) (rows cols : Nat) : Prop :=
  t.length = rows ∧ ∀ row ∈ t, row.length = cols

/-- All nine stacked feature tensors of a collated batch are
`batchSize × max_len` matrices and the stacked label tensor is a
`batchSize × 1` matrix. -/
def collateShapesOk (out : BatchTensors) (batchSize max_len : Nat) : Prop :=
  isMatrixOfShape out.aT.1 batchSize max_len ∧
  isMatrixOfShape out.aT.2.1 batchSize max_len ∧
  isMatrixOfShape out.aT.2.2 batchSize max_len ∧
  isMatrixOfShape out.bT.1 batchSize max_len ∧
  isMatrixOfShape out.bT.2.1 batchSize max_len ∧
  isMatrixOfShape out.bT.2.2 batchSize max_len ∧
  isMatrixOfShape out.cT.1 batchSize max_len ∧
  isMatrixOfShape out.cT.2.1 batchSize max_len ∧
  isMatrixOfShape out.cT.2.2 batchSize max_len ∧
  isMatrixOfShape out.labels batchSize 1

/-- The external building blocks used by `BertForSimMatchModel`
(`src/models/bert_esim.py`): the two `Seq2SeqEncoder`s wrapping `nn.LSTM`
(taking a sequence of token vectors and the true length computed from the
mask), the `SoftmaxAttention`, the `_projection` `Linear`+`ReLU` applied per
token, the `_classification` head applied per example, the exponential used
by `torch.nn.functional.softmax`, and `CrossEntropyLoss`.  They are torch /
`src/models/esim` collaborators outside `src/`, kept abstract; the
arithmetic that `bert_esim.py` itself performs on their outputs is embedded
concretely below. -/
structure EsimParams where
  encoding : List (List ℚ) → ℚ → List (List ℚ)
  attention : List (List ℚ) → List ℚ → List (List ℚ) → List ℚ →
    List (List ℚ) × List (List ℚ)
  projection : List ℚ → List ℚ
  composition : List (List ℚ) → ℚ → List (List ℚ)
  classification : List ℚ → List ℚ
  expFn : ℚ → ℚ
  lossFn : List (List ℚ) → List Nat → ℚ

/-- Componentwise fold of a list of vectors with a binary operation: the
embedding of a torch reduction (`sum` or `max`) over the sequence dimension. -/
def vcombine (f : ℚ → ℚ → ℚ) : List (List ℚ) → List ℚ
  | [] => []
  | [r] => r
  | r :: rs => List.zipWith f r (vcombine f rs)

/-- `torch.sum(v, dim=1)` over the sequence dimension of one example. -/
def vsum : List (List ℚ) → List ℚ := vcombine (fun x y => x + y)

/-- `.max(dim=1)` values over the sequence dimension of one example. -/
def vmax : List (List ℚ) → List ℚ := vcombine max

/-- The masked average pooling of `siamese` (`src/models/bert_esim.py` lines
114-117): multiply each position's vector by its mask value, sum over the
sequence, divide by the mask sum (`ℚ` division by zero yields zero where
torch would yield `nan`). -/
def maskedAvg (v : List (List ℚ)) (mask : List ℚ) : List ℚ :=
  (vsum (List.zipWith (fun row m => row.map (fun x => x * m)) v mask)).map
    (fun x => x / mask.sum)

/-- Modelled from the spec: `replace_masked` from `src/models/esim/utils.py`
(imported by `src/models/bert_esim.py` but not present under `src/`);
§4.5 step 6 of the spec: "replace padded positions with a large negative
sentinel before max, so they never win the max" — the vectors at positions
whose mask value is 0 are replaced by the sentinel value. -/
def replace_masked (v : List (List ℚ)) (mask : List ℚ) (value : ℚ) :
    List (List ℚ) :=
  (v.zip mask).map (fun p => if p.2 = 0 then p.1.map (fun _ => value) else p.1)

/-- `BertForSimMatchModel.siamese` (`src/models/bert_esim.py` lines 83-124)
for one example: encode both sides, cross-attend, enhance with difference and
elementwise product, project, re-encode (composition), pool by masked
average and masked max, and concatenate the four pooled vectors. -/
def siamese (P : EsimParams) (a_output b_output : List (List ℚ))
    (a_mask b_mask : List ℚ) : List ℚ :=
  let a_length := a_mask.sum
  let b_length := b_mask.sum
  let a_enc := P.encoding a_output a_length
  let b_enc := P.encoding b_output b_length
  let att := P.attention a_enc a_mask b_enc b_mask
  let enhanced_a := List.zipWith
    (fun x y => x ++ y ++ List.zipWith (fun u v => u - v) x y ++
      List.zipWith (fun u v => u * v) x y) a_enc att.1
  let enhanced_b := List.zipWith
    (fun x y => x ++ y ++ List.zipWith (fun u v => u - v) x y ++
      List.zipWith (fun u v => u * v) x y) b_enc att.2
  let projected_a := enhanced_a.map P.projection
  let projected_b := enhanced_b.map P.projection
  let v_ai := P.composition projected_a a_length
  let v_bj := P.composition projected_b b_length
  let v_a_avg := maskedAvg v_ai a_mask
  let v_b_avg := maskedAvg v_bj b_mask
  let v_a_max := vmax (replace_masked v_ai a_mask (-10000000))
  let v_b_max := vmax (replace_masked v_bj b_mask (-10000000))
  v_a_avg ++ v_a_max ++ v_b_avg ++ v_b_max

/-- `siamese` over a batch: every torch operation in the source acts
independently per batch element, so the batch version maps the per-example
`siamese` over the zipped batch. -/
def siameseBatch (P : EsimParams) (aOut bOut : List (List (List ℚ)))
    (aM bM : List (List ℚ)) : List (List ℚ) :=
  List.zipWith (fun x y => siamese P x.1 y.1 x.2 y.2) (aOut.zip aM)
    (bOut.zip bM)

/-- `torch.nn.functional.softmax(row, dim=1)` for one row, in terms of the
abstract exponential. -/
def softmaxRow (expFn : ℚ → ℚ) (row : List ℚ) : List ℚ :=
  let es := row.map expFn
  es.map (fun e => e / es.sum)

/-- The possible (non-`None`) return values of `BertForSimMatchModel.forward`:
a tensor (`prob` / `logits` modes), a scalar loss (`loss` mode) or the
`(output, prob, loss)` triple (`evaluate` mode). -/
inductive ForwardOutput where
  | tensor : List (List ℚ) → ForwardOutput
  | scalar : ℚ → ForwardOutput
  | triple : List (List ℚ) → List (List ℚ) → ℚ → ForwardOutput
deriving DecidableEq

/-- The shapes `(in_features, out_features)` of the two `nn.Linear` layers of
the `_classification` `Sequential` in `BertForSimMatchModel.__init__`
(`src/models/bert_esim.py` lines 38-42):
`nn.Linear(4 * 2 * config.hidden_size, config.hidden_size)` and
`nn.Linear(config.hidden_size, 2)`. -/
def classificationLinearShapes (hidden_size : Nat) : List (Nat × Nat) :=
  [(4 * 2 * hidden_size, hidden_size), (hidden_size, 2)]

/-- `BertForSimMatchModel.forward` (`src/models/bert_esim.py` lines 45-81).
Each of `a`, `b`, `c` is the tensor triple produced by
`InputFeatures.to_tensor`; the code reads only components `[0]` (fed to the
word-embedding table `emb`) and `[1]` (cast to float and used as the mask).
`Variable(...)` is the identity on modern torch.  `labels.view(-1)` flattens
the stacked `[batch, 1]` label tensor; calling a labels-requiring mode with
`labels=None` raises in Python, modelled as `none`.  A `mode` string matching
no branch falls through and returns Python's implicit `None`. -/
def forward (P : EsimParams) (emb : Nat → List ℚ)
    (a b c : List (List Nat) × List (List Nat) × List (List Nat))
    (labels : Option (List (List Nat))) (mode : String) :
    Option ForwardOutput :=
  let a_mask := a.2.1.map (fun row => row.map (fun x => (x : ℚ)))
  let b_mask := b.2.1.map (fun row => row.map (fun x => (x : ℚ)))
  let c_mask := c.2.1.map (fun row => row.map (fun x => (x : ℚ)))
  let a_output := a.1.map (fun row => row.map emb)
  let b_output := b.1.map (fun row => row.map emb)
  let c_output := c.1.map (fun row => row.map emb)
  let v_ab := siameseBatch P a_output b_output a_mask b_mask
  let v_ac := siameseBatch P a_output c_output a_mask c_mask
  let subtraction := List.zipWith (List.zipWith (fun x y => x - y)) v_ab v_ac
  let output := subtraction.map P.classification
  if mode = "prob" then
    some (ForwardOutput.tensor (output.map (softmaxRow P.expFn)))
  else if mode = "logits" then
    some (ForwardOutput.tensor output)
  else if mode = "loss" then
    match labels with
    | some ls => some (ForwardOutput.scalar (P.lossFn output ls.flatten))
    | none => none
  else if mode = "evaluate" then
    match labels with
    | some ls => some (ForwardOutput.triple output
        (output.map (softmaxRow P.expFn)) (P.lossFn output ls.flatten))
    | none => none
  else none

/-- A concrete instance of the abstract collaborators, used to evaluate the
model embedding on concrete inputs (its `composition` has the output width
`2 * hidden_size` of a bidirectional LSTM for `hidden_size = 1`). -/
def constParams : EsimParams where
  encoding := fun x _ => x
  attention := fun x _ y _ => (x, y)
  projection := fun v => v
  composition := fun _ _ => [[0, 0]]
  classification := fun _ => [0, 0]
  expFn := fun _ => 1
  lossFn := fun _ _ => 0

/-! ### Helper lemmas -/

/-- The truncation loop terminates with the combined length within budget. -/
lemma truncate_total_le_aux (max_length : Nat) :
    ∀ (n : Nat) (a b : List String), a.length + b.length ≤ n →
      (truncateSeqPair a b max_length).1.length +
        (truncateSeqPair a b max_length).2.length ≤ max_length := by
  intro n
  induction n with
  | zero =>
      intro a b h
      rw [truncateSeqPair, dif_pos (by omega)]
      show a.length + b.length ≤ max_length
      omega
  | succ n ih =>
      intro a b h
      rw [truncateSeqPair]
      by_cases h1 : a.length + b.length ≤ max_length
      · rw [dif_pos h1]; exact h1
      · rw [dif_neg h1]
        by_cases h2 : b.length < a.length
        · rw [dif_pos h2]
          exact ih a.tail b (by simp only [List.length_tail]; omega)
        · rw [dif_neg h2]
          exact ih a b.tail (by simp only [List.length_tail]; omega)

lemma truncate_total_le (a b : List String) (max_length : Nat) :
    (truncateSeqPair a b max_length).1.length +
      (truncateSeqPair a b max_length).2.length ≤ max_length :=
  truncate_total_le_aux max_length (a.length + b.length) a b le_rfl

/-- One-step unfolding of the truncation loop. -/
lemma truncate_step (a b : List String) (max_length : Nat) :
    truncateSeqPair a b max_length =
      if a.length + b.length ≤ max_length then (a, b)
      else if b.length < a.length then truncateSeqPair a.tail b max_length
      else truncateSeqPair a b.tail max_length := by
  rw [truncateSeqPair]
  by_cases h1 : a.length + b.length ≤ max_length
  · rw [dif_pos h1, if_pos h1]
  · rw [dif_neg h1, if_neg h1]
    by_cases h2 : b.length < a.length
    · rw [dif_pos h2, if_pos h2]
    · rw [dif_neg h2, if_neg h2]

/-- All three output sequences of the feature builder have length exactly
`max_seq_length` whenever `max_seq_length ≥ 3`. -/
lemma textPairToFeature_len (tokenize : String → List String)
    (tokToId : String → Nat) (text_a : String) (text_b : Option String)
    (msl : Nat) (h3 : 3 ≤ msl) :
    (textPairToFeature tokenize tokToId text_a text_b msl).1.length = msl ∧
    (textPairToFeature tokenize tokToId text_a text_b msl).2.1.length = msl ∧
    (textPairToFeature tokenize tokToId text_a text_b msl).2.2.length = msl := by
  unfold textPairToFeature
  by_cases hb : pyTruthy text_b
  · simp only [hb, if_true]
    have htp := truncate_total_le (tokenize text_a) (tokenize (text_b.getD ""))
      (msl - 3)
    set tp := truncateSeqPair (tokenize text_a) (tokenize (text_b.getD ""))
      (msl - 3) with htpdef
    by_cases h2 : tp.2 = []
    · simp only [h2, ne_eq, not_true_eq_false, if_false, List.length_append,
        List.length_map, List.length_cons, List.length_replicate, List.length_nil]
      omega
    · simp only [ne_eq, h2, not_false_eq_true, if_true, List.length_append,
        List.length_map, List.length_cons, List.length_replicate, List.length_nil]
      omega
  · simp only [hb, if_false, Bool.false_eq_true]
    by_cases hl : (tokenize text_a).length > msl - 2
    · simp only [hl, if_true, List.length_append, List.length_map,
        List.length_cons, List.length_replicate, List.length_drop, List.length_nil]
      omega
    · simp only [hl, if_false, List.length_append, List.length_map,
        List.length_cons, List.length_replicate, List.length_nil]
      omega

/-- On the single-text path the mask sum counts the kept tokens plus the two
special tokens `[CLS]` and `[SEP]`. -/
lemma textPairToFeature_mask_sum (tokenize : String → List String)
    (tokToId : String → Nat) (text_a : String) (msl : Nat) :
    ((textPairToFeature tokenize tokToId text_a none msl).2.2).sum =
      min (tokenize text_a).length (msl - 2) + 2 := by
  unfold textPairToFeature
  simp only [show pyTruthy none = false from rfl, Bool.false_eq_true, if_false]
  by_cases hl : (tokenize text_a).length > msl - 2
  · simp only [hl, if_true, List.sum_append, List.sum_replicate, smul_eq_mul,
      mul_one, mul_zero, List.length_map, List.length_cons, List.length_append,
      List.length_drop, List.length_nil]
    omega
  · simp only [hl, if_false, List.sum_append, List.sum_replicate, smul_eq_mul,
      mul_one, mul_zero, List.length_map, List.length_cons, List.length_append,
      List.length_nil]
    omega

/-- `dropDuplicates` never lengthens a list. -/
lemma dropDuplicates_length_le_aux {α : Type} [DecidableEq α] :
    ∀ (n : Nat) (l : List α), l.length ≤ n →
      (dropDuplicates l).length ≤ l.length := by
  intro n
  induction n with
  | zero =>
      intro l h
      cases l with
      | nil => simp [dropDuplicates]
      | cons r rs => simp at h
  | succ n ih =>
      intro l h
      cases l with
      | nil => simp [dropDuplicates]
      | cons r rs =>
          rw [dropDuplicates]
          simp only [List.length_cons]
          have h1 : (rs.filter (fun x => x ≠ r)).length ≤ rs.length :=
            List.length_filter_le _ _
          have h2 := ih (rs.filter (fun x => x ≠ r))
            (by simp only [List.length_cons] at h; omega)
          omega

lemma dropDuplicates_length_le {α : Type} [DecidableEq α] (l : List α) :
    (dropDuplicates l).length ≤ l.length :=
  dropDuplicates_length_le_aux l.length l le_rfl

/-- Every member of the input survives deduplication (its first occurrence is
kept). -/
lemma mem_dropDuplicates_of_mem_aux {α : Type} [DecidableEq α] :
    ∀ (n : Nat) (l : List α) (a : α), l.length ≤ n → a ∈ l →
      a ∈ dropDuplicates l := by
  intro n
  induction n with
  | zero =>
      intro l a h ha
      cases l with
      | nil => simp at ha
      | cons r rs => simp at h
  | succ n ih =>
      intro l a h ha
      cases l with
      | nil => simp at ha
      | cons r rs =>
          rw [dropDuplicates]
          rcases List.mem_cons.mp ha with rfl | hrs
          · exact List.mem_cons_self _ _
          · by_cases har : a = r
            · exact har ▸ List.mem_cons_self _ _
            · refine List.mem_cons_of_mem _ (ih _ a ?_ ?_)
              · have := List.length_filter_le (fun x => decide (x ≠ r)) rs
                simp only [List.length_cons] at h
                omega
              · simp only [List.mem_filter, decide_eq_true_eq]
                exact ⟨hrs, har⟩

lemma mem_dropDuplicates_of_mem {α : Type} [DecidableEq α] {l : List α}
    {a : α} (ha : a ∈ l) : a ∈ dropDuplicates l :=
  mem_dropDuplicates_of_mem_aux l.length l a le_rfl ha

/-- A componentwise fold of a nonempty list of equal-width vectors has that
width. -/
lemma vcombine_length (f : ℚ → ℚ → ℚ) :
    ∀ (l : List (List ℚ)) (w : Nat), l ≠ [] → (∀ r ∈ l, r.length = w) →
      (vcombine f l).length = w := by
  intro l
  induction l with
  | nil => intro w h _; exact absurd rfl h
  | cons r rs ih =>
      intro w _ hw
      cases rs with
      | nil => simpa [vcombine] using hw r (by simp)
      | cons s ss =>
          rw [show vcombine f (r :: s :: ss) =
              List.zipWith f r (vcombine f (s :: ss)) from by
            rw [vcombine]
            simp]
          rw [List.length_zipWith]
          have h1 := hw r (by simp)
          have h2 : (vcombine f (s :: ss)).length = w :=
            ih w (by simp) (fun x hx => hw x (List.mem_cons_of_mem _ hx))
          omega

/-- Scaling each row by its mask value preserves row widths. -/
lemma zipWith_scale_rows :
    ∀ (v : List (List ℚ)) (mask : List ℚ) (w : Nat),
      (∀ r ∈ v, r.length = w) →
      ∀ r ∈ List.zipWith (fun row m => row.map (fun x => x * m)) v mask,
        r.length = w := by
  intro v
  induction v with
  | nil => intro mask w _ r hr; simp at hr
  | cons a as ih =>
      intro mask w hw r hr
      cases mask with
      | nil => simp at hr
      | cons m ms =>
          simp only [List.zipWith_cons_cons, List.mem_cons] at hr
          rcases hr with rfl | hr
          · simp [hw a (by simp)]
          · exact ih ms w (fun x hx => hw x (List.mem_cons_of_mem _ hx)) r hr

/-- `replace_masked` preserves row widths. -/
lemma replace_masked_rows (v : List (List ℚ)) (mask : List ℚ) (value : ℚ)
    (w : Nat) (hw : ∀ r ∈ v, r.length = w) :
    ∀ r ∈ replace_masked v mask value, r.length = w := by
  intro r hr
  simp only [replace_masked, List.mem_map] at hr
  obtain ⟨⟨x, m⟩, hp, rfl⟩ := hr
  have hx : x ∈ v := (List.of_mem_zip hp).1
  by_cases h : m = 0 <;> simp [h, hw x hx]

/-- Width of the masked average pooling. -/
lemma maskedAvg_length (v : List (List ℚ)) (mask : List ℚ) (w : Nat)
    (hv : v ≠ []) (hm : mask ≠ []) (hw : ∀ r ∈ v, r.length = w) :
    (maskedAvg v mask).length = w := by
  unfold maskedAvg
  rw [List.length_map]
  refine vcombine_length _ _ w ?_ (zipWith_scale_rows v mask w hw)
  have := List.length_zipWith (fun row m => row.map (fun x => x * m)) v mask
  intro e
  rw [e] at this
  simp only [List.length_nil] at this
  rcases List.exists_mem_of_ne_nil v hv with ⟨x, hx⟩
  rcases List.exists_mem_of_ne_nil mask hm with ⟨y, hy⟩
  have hv1 := List.length_pos.mpr hv
  have hm1 := List.length_pos.mpr hm
  omega

/-- Width of the masked max pooling. -/
lemma vmax_replace_length (v : List (List ℚ)) (mask : List ℚ) (value : ℚ)
    (w : Nat) (hv : v ≠ []) (hm : mask ≠ []) (hw : ∀ r ∈ v, r.length = w) :
    (vmax (replace_masked v mask value)).length = w := by
  refine vcombine_length _ _ w ?_ (replace_masked_rows v mask value w hw)
  have hlen : (replace_masked v mask value).length = min v.length mask.length := by
    simp [replace_masked, List.length_zip]
  intro e
  rw [e] at hlen
  simp only [List.length_nil] at hlen
  have hv1 := List.length_pos.mpr hv
  have hm1 := List.length_pos.mpr hm
  omega

/-- The siamese vector concatenates four pooled vectors, each of the output
width of the (bidirectional) composition encoder. -/
lemma siamese_length (P : EsimParams) (hidden : Nat)
    (a_output b_output : List (List ℚ)) (a_mask b_mask : List ℚ)
    (hcomp : ∀ x n, P.composition x n ≠ [] ∧
      ∀ r ∈ P.composition x n, r.length = 2 * hidden)
    (hma : a_mask ≠ []) (hmb : b_mask ≠ []) :
    (siamese P a_output b_output a_mask b_mask).length = 4 * (2 * hidden) := by
  unfold siamese
  simp only [List.length_append]
  rw [maskedAvg_length _ _ _ (hcomp _ _).1 hma (hcomp _ _).2,
    maskedAvg_length _ _ _ (hcomp _ _).1 hmb (hcomp _ _).2,
    vmax_replace_length _ _ _ _ (hcomp _ _).1 hma (hcomp _ _).2,
    vmax_replace_length _ _ _ _ (hcomp _ _).1 hmb (hcomp _ _).2]
  ring

/-- Mapping a row-builder with constant row length over a batch yields a
well-shaped matrix. -/
lemma map_isMatrixOfShape {α : Type} {l : List α} {g : α → List Nat}
    {c : Nat} (hg : ∀ x ∈ l, (g x).length = c) :
    isMatrixOfShape (l.map g) l.length c := by
  constructor
  · simp
  · intro row hrow
    rcases List.mem_map.mp hrow with ⟨x, hx, rfl⟩
    exact hg x hx

/-! ### The claims -/

/-- Claim C1: the paired truncation loop removes one token at a time from the
front (the `tail`) of whichever sequence is currently longer, removing from
`tokens_b` when the lengths are equal, and stops exactly when
`len(tokens_a) + len(tokens_b)` is within the budget — the branch taken when
the combined length is already within budget returns the pair unchanged, and
the final combined length is within the budget.  `_text_pair_to_feature`
passes the budget `max_seq_length - 3` (see `textPairToFeature`), for which
this holds as an instance. -/
theorem truncate_pair_loop_characterization (tokens_a tokens_b : List String)
    (max_length : Nat) :
    (truncateSeqPair tokens_a tokens_b max_length =
      if tokens_a.length + tokens_b.length ≤ max_length then
        (tokens_a, tokens_b)
      else if tokens_b.length < tokens_a.length then
        truncateSeqPair tokens_a.tail tokens_b max_length
      else
        truncateSeqPair tokens_a tokens_b.tail max_length) ∧
    (truncateSeqPair tokens_a tokens_b max_length).1.length +
      (truncateSeqPair tokens_a tokens_b max_length).2.length ≤ max_length :=
  ⟨truncate_step tokens_a tokens_b max_length,
   truncate_total_le tokens_a tokens_b max_length⟩

/-- Claim C2: for every text (and optional secondary text), every tokenizer
and every `max_seq_length ≥ 3`, the three sequences built by
`_text_pair_to_feature` (`input_ids`, `segment_ids`, `input_mask`) each have
length exactly `max_seq_length`, so the three trailing assertions never
fire. -/
theorem feature_lengths_eq_max_seq_length (tokenize : String → List String)
    (tokToId : String → Nat) (text_a : String) (text_b : Option String)
    (msl : Nat) (h : 3 ≤ msl) :
    (textPairToFeature tokenize tokToId text_a text_b msl).1.length = msl ∧
    (textPairToFeature tokenize tokToId text_a text_b msl).2.1.length = msl ∧
    (textPairToFeature tokenize tokToId text_a text_b msl).2.2.length = msl :=
  textPairToFeature_len tokenize tokToId text_a text_b msl h

/-- Witness for C2 at a concrete tokenizer, text pair and `max_seq_length`. -/
theorem feature_lengths_eq_max_seq_length_witness :
    (textPairToFeature (fun s => [s]) (fun _ => 0) "hello" (some "world")
      8).1.length = 8 ∧
    (textPairToFeature (fun s => [s]) (fun _ => 0) "hello" (some "world")
      8).2.1.length = 8 ∧
    (textPairToFeature (fun s => [s]) (fun _ => 0) "hello" (some "world")
      8).2.2.length = 8 :=
  feature_lengths_eq_max_seq_length (fun s => [s]) (fun _ => 0) "hello"
    (some "world") 8 (by decide)

/-- Counterexample to claim C3 as stated: for the tokenizer sending every
text to the single token `"t"` and `max_length = 8`, the mask sum of the
single-text feature is `3` (one kept token plus the two special tokens
`[CLS]` and `[SEP]`), not `min(len(tokenize(text)), max_length-2) + 1 = 2`. -/
theorem mask_sum_plus_one_counterexample :
    ((textPairToFeature (fun _ => ["t"]) (fun _ => 0) "x" none 8).2.2).sum
      = 3 ∧
    ((textPairToFeature (fun _ => ["t"]) (fun _ => 0) "x" none 8).2.2).sum
      ≠ min ((fun (_ : String) => ["t"]) "x").length (8 - 2) + 1 := by
  constructor <;> decide

/-- Claim C3 (amended): for every text and every `max_length ≥ 3`, the
single-text feature satisfies
`sum(input_mask) = min(len(tokenize(text)), max_length-2) + 2` — the `[CLS]`
and `[SEP]` special tokens account for `+2`, not `+1`. -/
theorem mask_sum_min_plus_two (tokenize : String → List String)
    (tokToId : String → Nat) (text_a : String) (msl : Nat) (_h : 3 ≤ msl) :
    ((textPairToFeature tokenize tokToId text_a none msl).2.2).sum =
      min (tokenize text_a).length (msl - 2) + 2 :=
  textPairToFeature_mask_sum tokenize tokToId text_a msl

/-- Witness for the amended C3 at a concrete tokenizer and `max_length`. -/
theorem mask_sum_min_plus_two_witness :
    ((textPairToFeature (fun _ => ["t", "u", "v"]) (fun _ => 0) "x" none
      4).2.2).sum =
      min ((fun (_ : String) => ["t", "u", "v"]) "x").length (4 - 2) + 2 :=
  mask_sum_min_plus_two (fun _ => ["t", "u", "v"]) (fun _ => 0) "x" 4
    (by decide)

/-- Inversion of a successful `TripletTextDataset.init`: the placeholder
label list, the satisfied length assertions, and the stored fields. -/
lemma init_some_spec (as bs cs : List String) (lso : Option (List String))
    (d : TripletTextDataset)
    (hd : TripletTextDataset.init as bs cs lso = some d) :
    ∃ labels : List (Option String),
      labels = (if lso = none ∨ (lso.getD []).length = 0 then
          List.replicate as.length none
        else (lso.getD []).map some) ∧
      labels.length = as.length ∧ labels.length = bs.length ∧
      labels.length = cs.length ∧
      d = ⟨as, bs, cs,
        labels.map (fun label => if label = some "B" then 0 else 1)⟩ := by
  unfold TripletTextDataset.init at hd
  dsimp only at hd
  by_cases hc : lso = none ∨ (lso.getD []).length = 0
  · rw [if_pos hc] at hd ⊢
    split at hd
    · rename_i hcond
      exact ⟨_, rfl, hcond.1, hcond.2.1, hcond.2.2,
        (Option.some.inj hd).symm⟩
    · exact absurd hd (by simp)
  · rw [if_neg hc] at hd ⊢
    split at hd
    · rename_i hcond
      exact ⟨_, rfl, hcond.1, hcond.2.1, hcond.2.2,
        (Option.some.inj hd).symm⟩
    · exact absurd hd (by simp)

/-- Counterexample to claim C4 as stated: constructing the dataset from
parallel lists with `label_list` absent stores the placeholder `None`, which
compares unequal to `"B"`, so `get(0)` returns numeric label `1`, not `0`. -/
theorem default_label_lists_path_counterexample :
    (TripletTextDataset.init ["x"] ["y"] ["z"] none).bind
        (fun d => d.getItem 0) = some ("x", "y", "z", 1) ∧
    (TripletTextDataset.init ["x"] ["y"] ["z"] none).bind
        (fun d => d.getItem 0) ≠ some ("x", "y", "z", 0) := by
  constructor <;> decide

/-- Claim C4 (amended): on the dataframe path (and hence the record-list and
JSON-lines paths, which reduce to it) an absent `label` column defaults every
row to `"B"`, i.e. numeric label `0`; but on the parallel-lists path an
absent or empty `label_list` stores the placeholder `None`, which the mapping
`0 if label == "B" else 1` sends to numeric label `1` for every index. -/
theorem default_label_by_path :
    (∀ df : DataFrame, df.label = none → ∀ d : TripletTextDataset,
      fromDataframe df = some d → ∀ x ∈ d.label_list, x = 0) ∧
    (∀ as bs cs : List String, ∀ d : TripletTextDataset,
      TripletTextDataset.init as bs cs none = some d →
        ∀ x ∈ d.label_list, x = 1) ∧
    (∀ data : List Record, (∀ r ∈ data, r.label = none) →
      ∀ d : TripletTextDataset, fromDictList data false = some d →
        ∀ x ∈ d.label_list, x = 0) := by
  refine ⟨?_, ?_, ?_⟩
  · intro df hlab d hd x hx
    unfold fromDataframe at hd
    rw [hlab] at hd
    obtain ⟨labels, hlabels, h1, h2, h3, hdef⟩ :=
      init_some_spec _ _ _ _ _ hd
    subst hdef
    simp only [Option.getD_some, List.length_replicate] at hlabels
    by_cases hn : df.A.length = 0
    · rw [if_pos (Or.inr hn)] at hlabels
      subst hlabels
      simp [hn] at hx
    · rw [if_neg (by simp [hn])] at hlabels
      subst hlabels
      rcases List.mem_map.mp hx with ⟨y, hy, rfl⟩
      rcases List.mem_map.mp hy with ⟨z, hz, rfl⟩
      have hz2 := List.eq_of_mem_replicate hz
      subst hz2
      exact if_pos rfl
  · intro as bs cs d hd x hx
    obtain ⟨labels, hlabels, h1, h2, h3, hdef⟩ :=
      init_some_spec _ _ _ _ _ hd
    subst hdef
    rw [if_pos (Or.inl rfl)] at hlabels
    subst hlabels
    simp only [List.map_replicate] at hx
    have := List.eq_of_mem_replicate hx
    simpa using this
  · intro data hlab d hd x hx
    unfold fromDictList at hd
    have hall : data.all (fun r => r.label.isNone) = true := by
      rw [List.all_eq_true]
      intro r hr
      simp [hlab r hr]
    rw [if_pos hall] at hd
    simp only [Bool.false_eq_true, if_false] at hd
    obtain ⟨labels, hlabels, h1, h2, h3, hdef⟩ :=
      init_some_spec _ _ _ _ _ hd
    subst hdef
    simp only [Option.getD_some] at hlabels
    by_cases hn :
        ((data.map (fun r => (⟨r.A, r.B, r.C, "B"⟩ : Row))).map
          Row.label).length = 0
    · rw [if_pos (Or.inr hn)] at hlabels
      subst hlabels
      simp only [List.length_map] at hn
      simp [List.length_map, hn] at hx
    · rw [if_neg (by simp only [not_or]; exact ⟨by simp, hn⟩)] at hlabels
      subst hlabels
      simp only [List.map_map] at hx
      rcases List.mem_map.mp hx with ⟨y, hy, rfl⟩
      simp

/-- Witness for the amended C4: each path instantiated at a one-row input. -/
theorem default_label_by_path_witness :
    (∀ x ∈ (⟨["x"], ["y"], ["z"], [0]⟩ : TripletTextDataset).label_list,
      x = 0) ∧
    (∀ x ∈ (⟨["x"], ["y"], ["z"], [1]⟩ : TripletTextDataset).label_list,
      x = 1) ∧
    (∀ x ∈ (⟨["x"], ["y"], ["z"], [0]⟩ : TripletTextDataset).label_list,
      x = 0) :=
  ⟨default_label_by_path.1 ⟨["x"], ["y"], ["z"], none⟩ rfl
      ⟨["x"], ["y"], ["z"], [0]⟩ (by decide),
   default_label_by_path.2.1 ["x"] ["y"] ["z"]
      ⟨["x"], ["y"], ["z"], [1]⟩ (by decide),
   default_label_by_path.2.2 [⟨"x", "y", "z", none⟩] (by decide)
      ⟨["x"], ["y"], ["z"], [0]⟩ (by decide)⟩

/-- Claim C5: for a dataset built with labels all in `{"B", "C"}` and a valid
index, `get(index)` returns the raw tuple of the stored texts
`(text_a_list[i], text_b_list[i], text_c_list[i])` together with the numeric
label, which is `0` exactly when the stored label is `"B"` and `1` exactly
when it is `"C"`. -/
theorem label_mapping_B0_C1 (as bs cs ls : List String)
    (d : TripletTextDataset) (i : Nat)
    (hinit : TripletTextDataset.init as bs cs (some ls) = some d)
    (hlab : ∀ l ∈ ls, l = "B" ∨ l = "C") (hi : i < ls.length) :
    ∃ L, d.getItem i = some (as.getD i "", bs.getD i "", cs.getD i "", L) ∧
      (L = 0 ↔ ls.getD i "" = "B") ∧ (L = 1 ↔ ls.getD i "" = "C") := by
  obtain ⟨labels, hlabels, h1, h2, h3, hdef⟩ := init_some_spec _ _ _ _ _ hinit
  subst hdef
  simp only [Option.getD_some] at hlabels
  rw [if_neg (by simp only [not_or]; refine ⟨by simp, by omega⟩)] at hlabels
  subst hlabels
  have hia : i < as.length := by simp only [List.length_map] at h1; omega
  have hib : i < bs.length := by simp only [List.length_map] at h2; omega
  have hic : i < cs.length := by simp only [List.length_map] at h3; omega
  have hil : i < ((ls.map some).map
      (fun label => if label = some "B" then 0 else 1)).length := by
    simp only [List.length_map]; omega
  have hgd : ls.getD i "" = ls[i] := List.getD_eq_getElem ls "" hi
  refine ⟨if ls[i] = "B" then 0 else 1, ?_, ?_, ?_⟩
  · unfold TripletTextDataset.getItem
    rw [List.get?_eq_get hia, List.get?_eq_get hib, List.get?_eq_get hic,
      List.get?_eq_get hil]
    dsimp only
    rw [List.getD_eq_getElem as "" hia, List.getD_eq_getElem bs "" hib,
      List.getD_eq_getElem cs "" hic]
    simp [List.get_eq_getElem, List.getElem_map, Option.some.injEq]
  · rw [hgd]
    by_cases hb : ls[i] = "B" <;> simp [hb]
  · rw [hgd]
    constructor
    · intro h1L
      by_cases hb : ls[i] = "B"
      · rw [if_pos hb] at h1L
        exact absurd h1L (by decide)
      · rcases hlab ls[i] (List.getElem_mem hi) with hB | hC
        · exact absurd hB hb
        · exact hC
    · intro hc
      rw [if_neg (by rw [hc]; decide)]

/-- Witness for C5 at a concrete two-row dataset with labels `B` and `C`. -/
theorem label_mapping_B0_C1_witness :
    ∃ L,
      (⟨["a1", "a2"], ["b1", "b2"], ["c1", "c2"], [0, 1]⟩ :
        TripletTextDataset).getItem 1 =
        some (["a1", "a2"].getD 1 "", ["b1", "b2"].getD 1 "",
          ["c1", "c2"].getD 1 "", L) ∧
      (L = 0 ↔ ["B", "C"].getD 1 "" = "B") ∧
      (L = 1 ↔ ["B", "C"].getD 1 "" = "C") :=
  label_mapping_B0_C1 ["a1", "a2"] ["b1", "b2"] ["c1", "c2"] ["B", "C"]
    ⟨["a1", "a2"], ["b1", "b2"], ["c1", "c2"], [0, 1]⟩ 1 (by decide)
    (by decide) (by decide)

/-- Claim C6: `augment` on `N` rows produces at most `6N` rows (the originals
plus five derived variants, collapsed by exact-duplicate removal), and every
original row — its label included — appears in the output. -/
theorem augment_size_and_originals (rows : List Row) :
    (augment rows).length ≤ 6 * rows.length ∧
    ∀ r ∈ rows, r ∈ augment rows := by
  constructor
  · unfold augment
    have h := dropDuplicates_length_le
      (rows ++ rows.map cp1 ++ rows.map cp2 ++ rows.map cp3 ++
        rows.map cp4 ++ rows.map cp5)
    simp only [List.length_append, List.length_map] at h
    omega
  · intro r hr
    unfold augment
    exact mem_dropDuplicates_of_mem (by simp [hr])

/-- Witness for C6 at a concrete one-row input. -/
theorem augment_size_and_originals_witness :
    (augment [⟨"a", "b", "c", "B"⟩]).length ≤
      6 * ([⟨"a", "b", "c", "B"⟩] : List Row).length ∧
    (⟨"a", "b", "c", "B"⟩ : Row) ∈ augment [⟨"a", "b", "c", "B"⟩] :=
  ⟨(augment_size_and_originals [⟨"a", "b", "c", "B"⟩]).1,
   (augment_size_and_originals [⟨"a", "b", "c", "B"⟩]).2 _ (by simp)⟩

/-- Counterexample to claim C7 as stated: with hidden size `1` (and a
composition encoder of the bidirectional output width `2 * 1`), the siamese
vector has width `8 = 4 * 2 * 1`, not `4 * 1`, and the first linear layer of
the classification head has `in_features = 8`, not `4 * 1`. -/
theorem siamese_width_counterexample :
    (siamese constParams [[0]] [[0]] [1] [1]).length = 8 ∧
    (siamese constParams [[0]] [[0]] [1] [1]).length ≠ 4 * 1 ∧
    (classificationLinearShapes 1).head? = some (8, 1) ∧
    (classificationLinearShapes 1).head? ≠ some (4 * 1, 1) := by
  refine ⟨by decide, by decide, by decide, by decide⟩

/-- Claim C7 (amended): the siamese vector concatenates four pooled vectors
each of the `2 * hidden_size` output width of the bidirectional composition
encoder, so its width is `4 * (2 * hidden_size) = 8 * hidden_size`, and the
classification head's first linear layer maps `4 * 2 * hidden_size` to
`hidden_size`. -/
theorem siamese_width_eight_hidden (P : EsimParams) (hidden : Nat)
    (a_output b_output : List (List ℚ)) (a_mask b_mask : List ℚ)
    (hcomp : ∀ x n, P.composition x n ≠ [] ∧
      ∀ r ∈ P.composition x n, r.length = 2 * hidden)
    (hma : a_mask ≠ []) (hmb : b_mask ≠ []) :
    (siamese P a_output b_output a_mask b_mask).length = 4 * (2 * hidden) ∧
    (classificationLinearShapes hidden).head? =
      some (4 * (2 * hidden), hidden) :=
  ⟨siamese_length P hidden a_output b_output a_mask b_mask hcomp hma hmb,
   by
    have hmul : 4 * 2 * hidden = 4 * (2 * hidden) := by ring
    simp [classificationLinearShapes, hmul]⟩

/-- Witness for the amended C7 at hidden size `1` with a concrete
composition encoder of output width `2`. -/
theorem siamese_width_eight_hidden_witness :
    (siamese constParams [[0]] [[0]] [1] [1]).length = 4 * (2 * 1) ∧
    (classificationLinearShapes 1).head? = some (4 * (2 * 1), 1) :=
  siamese_width_eight_hidden constParams 1 [[0]] [[0]] [1] [1]
    (fun x n => ⟨by simp [constParams], by
      intro r hr
      simp only [constParams, List.mem_singleton] at hr
      subst hr
      rfl⟩)
    (by simp) (by simp)

/-- Claim C8: on identical inputs, `forward` in `"prob"` mode returns exactly
the row-wise softmax of what `forward` in `"logits"` mode returns — both
branches apply `_classification` to the same `v_ab - v_ac` difference. -/
theorem prob_eq_softmax_of_logits (P : EsimParams) (emb : Nat → List ℚ)
    (a b c : List (List Nat) × List (List Nat) × List (List Nat))
    (labels : Option (List (List Nat))) :
    ∃ t, forward P emb a b c labels "logits" = some (ForwardOutput.tensor t) ∧
      forward P emb a b c labels "prob" =
        some (ForwardOutput.tensor (t.map (softmaxRow P.expFn))) :=
  ⟨_, rfl, rfl⟩

/-- Counterexample to claim C9 as stated: each per-example label tensor is
`torch.LongTensor([label])` of shape `[1]`, so `default_collate` stacks them
into a label tensor of shape `[batch, 1]` — for a one-element batch the
shape is `[1, 1]`, not `[1]`. -/
theorem label_tensor_shape_counterexample :
    matrixShape (threePairCollate (fun s => [s]) (fun _ => 0) 3
      [("a", "b", "c", 0)]).labels = [1, 1] ∧
    matrixShape (threePairCollate (fun s => [s]) (fun _ => 0) 3
      [("a", "b", "c", 0)]).labels ≠ [1] := by
  refine ⟨by decide, by decide⟩

/-- Claim C9 (amended): for `max_length ≥ 3`, the collator returns three
feature tensor triples whose components are each `[batch, max_length]`
matrices, and a label tensor of shape `[batch, 1]` (each entry wrapped in a
singleton list before stacking), not `[batch]`. -/
theorem collate_shapes (tokenize : String → List String)
    (tokToId : String → Nat) (max_len : Nat)
    (batch : List (String × String × String × Nat)) (h : 3 ≤ max_len) :
    collateShapesOk (threePairCollate tokenize tokToId max_len batch)
      batch.length max_len := by
  unfold collateShapesOk threePairCollate
  simp only [List.map_map]
  refine ⟨?_, ?_, ?_, ?_, ?_, ?_, ?_, ?_, ?_, ?_⟩ <;>
  · apply map_isMatrixOfShape
    intro x hx
    first
    | exact (textPairToFeature_len tokenize tokToId _ none max_len h).1
    | exact (textPairToFeature_len tokenize tokToId _ none max_len h).2.2
    | exact (textPairToFeature_len tokenize tokToId _ none max_len h).2.1
    | rfl

/-- Witness for the amended C9 at a concrete one-element batch. -/
theorem collate_shapes_witness :
    collateShapesOk (threePairCollate (fun s => [s]) (fun _ => 0) 3
      [("a", "b", "c", 0)]) 1 3 := by
  have h := collate_shapes (fun s => [s]) (fun _ => 0) 3
    [("a", "b", "c", 0)] (by decide)
  simpa using h

/-- Claim C10: a `mode` string outside
`{"prob", "logits", "loss", "evaluate"}` falls through every dispatch branch
of `forward`, which returns Python's implicit `None` without raising. -/
theorem forward_unknown_mode_none (P : EsimParams) (emb : Nat → List ℚ)
    (a b c : List (List Nat) × List (List Nat) × List (List Nat))
    (labels : Option (List (List Nat))) (mode : String)
    (h : mode ∉ (["prob", "logits", "loss", "evaluate"] : List String)) :
    forward P emb a b c labels mode = none := by
  simp only [List.mem_cons, List.not_mem_nil, or_false, not_or] at h
  obtain ⟨h1, h2, h3, h4⟩ := h
  simp [forward, h1, h2, h3, h4]

/-- Witness for C10 at the unknown mode string `"score"`. -/
theorem forward_unknown_mode_none_witness :
    forward constParams (fun _ => [0]) ([[0]], [[1]], [[0]])
      ([[0]], [[1]], [[0]]) ([[0]], [[1]], [[0]]) none "score" = none :=
  forward_unknown_mode_none constParams (fun _ => [0]) ([[0]], [[1]], [[0]])
    ([[0]], [[1]], [[0]]) ([[0]], [[1]], [[0]]) none "score" (by decide)

end ScmFsim
